import Mathlib

/-!
Shallow embedding of the DNS wire-format encoder of
`codecrafters-dns-server-rust` (`src/main.rs`).

Modelling conventions:
* Rust `u8`/`u16` values are `Nat`s; where the source can truncate
  (`as u8`, left shifts on `u8`) the model takes the value `% 256`.
* A Rust `&str` is a `List Nat` of its UTF-8 bytes; `'.'` is byte 46.
  (Splitting the byte list on 46 agrees with `str::split('.')` because
  `.` is ASCII and cannot occur inside a multi-byte UTF-8 sequence.)
* A diverging arm (`unreachable!()`, which aborts) and a checked-`+`
  overflow (`attempt to add with overflow`, which aborts in builds with
  overflow checks) are both modelled as `none`; a returned value is
  `some`.  Left shifts on `u8` discard high bits silently in Rust, so
  they are modelled as multiplication `% 256`, never as `none`.
* Rust `Result<T, LabelParsingError>` is `Option T`: the error type has a
  single, information-free value.
-/

namespace DNS

/-- `enum OpCode` (src/main.rs lines 7-24). -/
inductive OpCode where
  | Query
  | IQuery
  | Status
  | Unassigned
  | Notify
  | Update
  | DSO
deriving DecidableEq

/-- `impl Default for OpCode` via `#[default]` on `Query`. -/
def OpCode.default : OpCode := OpCode.Query

/-- `OpCode::to_bytes` (src/main.rs lines 26-38): `Unassigned` hits
`unreachable!()` and aborts, modelled as `none`. -/
def OpCode.to_bytes : OpCode → Option Nat
  | OpCode.Query => some 0
  | OpCode.IQuery => some 1
  | OpCode.Status => some 2
  | OpCode.Unassigned => none
  | OpCode.Notify => some 4
  | OpCode.Update => some 5
  | OpCode.DSO => some 6

/-- `enum RCode` (src/main.rs lines 41-56). -/
inductive RCode where
  | NoError
  | FormErr
  | ServFail
  | NXDomain
  | NotImp
  | Refused
deriving DecidableEq

/-- `impl Default for RCode` via `#[default]` on `NoError`. -/
def RCode.default : RCode := RCode.NoError

/-- `RCode::to_bytes` (src/main.rs lines 58-69): every variant is mapped,
the wildcard arm is dead, so the function is total. -/
def RCode.to_bytes : RCode → Nat
  | RCode.NoError => 0
  | RCode.FormErr => 1
  | RCode.ServFail => 2
  | RCode.NXDomain => 3
  | RCode.NotImp => 4
  | RCode.Refused => 5

/-- `struct DNSHeader` (src/main.rs lines 72-100).  `packet_id` and the
four counts are `u16` (< 65536), `z` is a 3-bit reserved field stored in a
`u8`. -/
structure DNSHeader where
  packet_id : Nat
  qr : Bool
  opcode : OpCode
  aa : Bool
  tc : Bool
  rd : Bool
  ra : Bool
  z : Nat
  rcode : RCode
  qdcount : Nat
  ancount : Nat
  nscount : Nat
  arcount : Nat
deriving DecidableEq

/-- `impl Default for DNSHeader` (src/main.rs lines 102-120). -/
def DNSHeader.default : DNSHeader :=
  { packet_id := 1234
    qr := true
    opcode := OpCode.default
    aa := false
    tc := false
    rd := false
    ra := false
    z := 0
    rcode := RCode.default
    qdcount := 0
    ancount := 0
    nscount := 0
    arcount := 0 }

/-- Checked `u8` addition: Rust `+=` with a result above 255 is an
arithmetic-overflow error (an abort in builds with overflow checks),
modelled as `none`. -/
def checkedAdd8 (a b : Nat) : Option Nat :=
  if a + b ≤ 255 then some (a + b) else none

/-- `u16::to_be_bytes`: big-endian byte pair of a 16-bit value. -/
def u16be (v : Nat) : List Nat :=
  [v / 256 % 256, v % 256]

/-- Byte 2 of the header (src/main.rs lines 148-163): `t = 0`, then in
source order `qr` adds `1 << 7`, the opcode's wire value is shifted left
by 3 and added, then `aa` adds `1 << 2`, `tc` adds `1 << 1`, `rd` adds 1. -/
def DNSHeader.byte2 (h : DNSHeader) : Option Nat := do
  let t0 ← if h.qr then checkedAdd8 0 128 else some 0
  let op ← h.opcode.to_bytes
  let t1 ← checkedAdd8 t0 (op * 8 % 256)
  let t2 ← if h.aa then checkedAdd8 t1 4 else some t1
  let t3 ← if h.tc then checkedAdd8 t2 2 else some t2
  if h.rd then checkedAdd8 t3 1 else some t3

/-- Byte 3 of the header (src/main.rs lines 165-172): the source computes
`t = self.z << 6` (a `u8` shift, discarding bits silently), then `ra` adds
`1 << 7`, then the rcode's wire value is added. -/
def DNSHeader.byte3 (h : DNSHeader) : Option Nat := do
  let u0 := h.z * 64 % 256
  let u1 ← if h.ra then checkedAdd8 u0 128 else some u0
  checkedAdd8 u1 h.rcode.to_bytes

/-- `DNSHeader::to_bytes` (src/main.rs lines 122-189): the 12-byte header,
`[id_be, byte2, byte3, qdcount_be, ancount_be, nscount_be, arcount_be]`. -/
def DNSHeader.to_bytes (h : DNSHeader) : Option (List Nat) := do
  let b2 ← h.byte2
  let b3 ← h.byte3
  some (u16be h.packet_id ++ [b2, b3] ++ u16be h.qdcount ++ u16be h.ancount
        ++ u16be h.nscount ++ u16be h.arcount)

/-- `enum RRType` (src/main.rs lines 192-227). -/
inductive RRType where
  | A
  | NS
  | MD
  | MF
  | CName
  | SOA
  | MB
  | MG
  | MR
  | NULL
  | WKS
  | PTR
  | HInfo
  | MInfo
  | MX
  | TXT
deriving DecidableEq

/-- `impl Default for RRType` via `#[default]` on `A`. -/
def RRType.default : RRType := RRType.A

/-- The `u16` wire code matched in `RRType::to_bytes` (src/main.rs lines
229-251): `MInfo` hits `unreachable!()` and aborts, modelled as `none`. -/
def RRType.code : RRType → Option Nat
  | RRType.A => some 1
  | RRType.NS => some 2
  | RRType.MD => some 3
  | RRType.MF => some 4
  | RRType.CName => some 5
  | RRType.SOA => some 6
  | RRType.MB => some 7
  | RRType.MG => some 8
  | RRType.MR => some 9
  | RRType.NULL => some 10
  | RRType.WKS => some 11
  | RRType.PTR => some 12
  | RRType.HInfo => some 13
  | RRType.MInfo => none
  | RRType.MX => some 15
  | RRType.TXT => some 16

/-- `RRType::to_bytes`: the matched `u16` code as big-endian bytes. -/
def RRType.to_bytes (t : RRType) : Option (List Nat) :=
  t.code.map u16be

/-- `enum Class` (src/main.rs lines 253-264). -/
inductive Class where
  | IN
  | CS
  | CH
  | HS
deriving DecidableEq

/-- `impl Default for Class` via `#[default]` on `IN`. -/
def Class.default : Class := Class.IN

/-- The `u16` wire code matched in `Class::to_bytes` (src/main.rs lines
265-276): every variant is mapped, the wildcard arm is dead. -/
def Class.code : Class → Nat
  | Class.IN => 1
  | Class.CS => 2
  | Class.CH => 3
  | Class.HS => 4

/-- `Class::to_bytes`: the matched `u16` code as big-endian bytes. -/
def Class.to_bytes (c : Class) : List Nat :=
  u16be c.code

/-- `struct Label` (src/main.rs lines 278-282): a length byte and the
segment's bytes. -/
structure Label where
  length : Nat
  value : List Nat
deriving DecidableEq

/-- `impl FromStr for Label` (src/main.rs lines 286-299): fails when the
text contains `'.'` (byte 46) or its byte length exceeds 255; otherwise
stores `s.len() as u8` (a `% 256` truncation, vacuous on this branch) and
the bytes. -/
def Label.from_str (s : List Nat) : Option Label :=
  if 46 ∈ s ∨ 255 < s.length then none
  else some { length := s.length % 256, value := s }

/-- `Label::to_bytes` (src/main.rs lines 301-308): the length byte
followed by the raw bytes. -/
def Label.to_bytes (l : Label) : List Nat :=
  l.length :: l.value

/-- `str::split('.')` on a byte list: Rust's `split` always yields at
least one segment (the empty string splits into one empty segment), and a
separator at either end or doubled yields empty segments. -/
def splitOnByte (sep : Nat) : List Nat → List (List Nat)
  | [] => [[]]
  | b :: rest =>
      if b = sep then [] :: splitOnByte sep rest
      else
        match splitOnByte sep rest with
        | [] => [[b]]
        | g :: gs => (b :: g) :: gs

/-- `collect::<Result<Vec<Label>, _>>()` over the segment parses: the
whole list of labels, or the error if any segment fails. -/
def collectLabels : List (List Nat) → Option (List Label)
  | [] => some []
  | s :: rest =>
      match Label.from_str s, collectLabels rest with
      | some l, some ls => some (l :: ls)
      | _, _ => none

/-- `struct CName(Vec<Label>)` (src/main.rs lines 310-311). -/
structure CName where
  labels : List Label
deriving DecidableEq

/-- `impl FromStr for CName` (src/main.rs lines 313-323): split on `'.'`,
parse every segment as a `Label`, fail on the first failing segment. -/
def CName.from_str (s : List Nat) : Option CName :=
  (collectLabels (splitOnByte 46 s)).map CName.mk

/-- `CName::to_bytes` (src/main.rs lines 338-346): the labels' encodings
flat-mapped in order, then a single zero terminator byte. -/
def CName.to_bytes (c : CName) : List Nat :=
  (c.labels.flatMap Label.to_bytes) ++ [0]

/-- The UTF-8 bytes of `"abc.com"`. -/
def abcComBytes : List Nat := [97, 98, 99, 46, 99, 111, 109]

/-! ## Helper lemmas -/

/-- Every mapped opcode wire value is at most 6. -/
theorem OpCode.to_bytes_le_six (o : OpCode) (op : Nat)
    (ho : o.to_bytes = some op) : op ≤ 6 := by
  cases o <;> simp [OpCode.to_bytes] at ho <;> omega

/-- Every rcode wire value is at most 5. -/
theorem RCode.to_bytes_le_five (r : RCode) : r.to_bytes ≤ 5 := by
  cases r <;> simp [RCode.to_bytes]

/-- Successful encoding decomposes into the two flag bytes and the four
big-endian count pairs around them. -/
theorem DNSHeader.to_bytes_eq (h : DNSHeader) (bs : List Nat)
    (hbs : h.to_bytes = some bs) :
    ∃ b2 b3, h.byte2 = some b2 ∧ h.byte3 = some b3 ∧
      bs = u16be h.packet_id ++ [b2, b3] ++ u16be h.qdcount ++ u16be h.ancount
           ++ u16be h.nscount ++ u16be h.arcount := by
  cases hb2 : h.byte2 with
  | none => simp [DNSHeader.to_bytes, hb2] at hbs
  | some b2 =>
    cases hb3 : h.byte3 with
    | none => simp [DNSHeader.to_bytes, hb2, hb3] at hbs
    | some b3 =>
      refine ⟨b2, b3, rfl, rfl, ?_⟩
      simp [DNSHeader.to_bytes, hb2, hb3] at hbs
      exact hbs.symm

/-- Closed form of byte 2 when the opcode is mapped: the flag bits and the
opcode value never overflow, so every checked addition succeeds. -/
theorem DNSHeader.byte2_eq (h : DNSHeader) (op : Nat)
    (hop : h.opcode.to_bytes = some op) :
    h.byte2 = some ((if h.qr then 128 else 0) + op * 8
      + (if h.aa then 4 else 0) + (if h.tc then 2 else 0)
      + (if h.rd then 1 else 0)) := by
  obtain ⟨id, qr, opc, aa, tc, rd, ra, z, rc, c1, c2, c3, c4⟩ := h
  cases opc <;> simp [OpCode.to_bytes] at hop <;> subst hop <;>
    cases qr <;> cases aa <;> cases tc <;> cases rd <;> rfl

/-- Bit structure of the packed byte-2 value for any opcode value at most
6: bit 7 is QR, bits 6-3 are the opcode, bit 2 is AA, bit 1 is TC, bit 0
is RD. -/
theorem packedByte2_bits (op : Nat) (q a t r : Bool) (hop : op ≤ 6) :
    (((if q then 128 else 0) + op * 8 + (if a then 4 else 0)
      + (if t then 2 else 0) + (if r then 1 else 0)) : Nat).testBit 7 = q ∧
    ((if q then 128 else 0) + op * 8 + (if a then 4 else 0)
      + (if t then 2 else 0) + (if r then 1 else 0)) / 8 % 16 = op ∧
    (((if q then 128 else 0) + op * 8 + (if a then 4 else 0)
      + (if t then 2 else 0) + (if r then 1 else 0)) : Nat).testBit 2 = a ∧
    (((if q then 128 else 0) + op * 8 + (if a then 4 else 0)
      + (if t then 2 else 0) + (if r then 1 else 0)) : Nat).testBit 1 = t ∧
    (((if q then 128 else 0) + op * 8 + (if a then 4 else 0)
      + (if t then 2 else 0) + (if r then 1 else 0)) : Nat).testBit 0 = r := by
  interval_cases op <;> cases q <;> cases a <;> cases t <;> cases r <;> decide

/-- A successfully parsed label stores the truncated length and the raw
bytes. -/
theorem Label.from_str_eq (s : List Nat) (l : Label)
    (hl : Label.from_str s = some l) :
    l = { length := s.length % 256, value := s } := by
  unfold Label.from_str at hl
  split at hl <;> simp_all

/-- `collectLabels` succeeds exactly when every segment parses. -/
theorem collectLabels_isSome (L : List (List Nat)) :
    (collectLabels L).isSome
      = L.all (fun seg => (Label.from_str seg).isSome) := by
  induction L with
  | nil => rfl
  | cons s rest ih =>
      cases hs : Label.from_str s <;> cases hr : collectLabels rest <;>
        simp_all [collectLabels]

/-- On success, `collectLabels` returns labels whose values are exactly
the input segments, in order. -/
theorem collectLabels_values (L : List (List Nat)) :
    (collectLabels L).map (fun ls => ls.map Label.value)
      = if L.all (fun seg => (Label.from_str seg).isSome)
        then some L else none := by
  induction L with
  | nil => rfl
  | cons s rest ih =>
      have hall := collectLabels_isSome rest
      cases hs : Label.from_str s with
      | none => simp [collectLabels, hs, List.all_cons]
      | some l =>
          have hv : l.value = s := by rw [Label.from_str_eq s l hs]
          cases hr : collectLabels rest with
          | none =>
              rw [hr] at hall
              simp only [Option.isSome_none] at hall
              simp [collectLabels, hs, hr, List.all_cons, ← hall]
          | some ls =>
              rw [hr] at hall
              simp only [Option.isSome_some] at hall
              rw [hr] at ih
              rw [← hall] at ih
              simp at ih
              simp [collectLabels, hs, hr, List.all_cons, ← hall, hv, ih]

/-! ## Claim theorems -/

/-- C1: the claim fails on the code.  For the default header with `z := 1`
(RA false, rcode `NoError`) the encoder outputs byte 3 = `0x40` = 64: the
source computes `self.z << 6`, landing `z` at bits 7-6, so bits 6-4 of the
output byte are 4, not the stored `z = 1` the claim (and the RFC 1035
layout quoted in the source's own comment, which puts Z at bits 6-4)
requires. -/
theorem byte3_z_shifted_to_bit_six :
    DNSHeader.to_bytes { DNSHeader.default with z := 1 }
      = some [4, 210, 128, 64, 0, 0, 0, 0, 0, 0, 0, 0] ∧
    (64 : Nat) / 16 % 8 = 4 ∧ (64 : Nat) / 16 % 8 ≠ 1 := by decide

/-- C2: the claim fails on the code.  `OpCode::Unassigned` and
`RRType::MInfo` hit `unreachable!()`, an abort (modelled `none`), not a
recoverable typed `UnmappedVariant` error. -/
theorem unmapped_variants_abort :
    OpCode.to_bytes OpCode.Unassigned = none ∧
    RRType.to_bytes RRType.MInfo = none := by decide

/-- C3: the claim fails on the code.  The header with `z = 2`, `ra = true`
and all else default has `z ≤ 7` and mapped opcode and rcode, yet encoding
aborts: `z << 6` already occupies bit 7 (value 128), so adding the RA bit
(128) exceeds 255 and the checked addition overflows. -/
theorem byte3_overflow_reachable :
    ({ DNSHeader.default with z := 2, ra := true } : DNSHeader).z ≤ 7 ∧
    (OpCode.to_bytes
      ({ DNSHeader.default with z := 2, ra := true } : DNSHeader).opcode).isSome = true ∧
    DNSHeader.byte3 { DNSHeader.default with z := 2, ra := true } = none ∧
    DNSHeader.to_bytes { DNSHeader.default with z := 2, ra := true } = none := by
  decide

/-- C4: whenever encoding succeeds, bytes 0-1 are the big-endian packet
identifier and byte 2 packs QR at bit 7, the opcode at bits 6-3, AA at
bit 2, TC at bit 1 and RD at bit 0; the default header (QR true, opcode
Query, AA = TC = RD = false, id 1234) encodes with bytes 0-2 =
`[0x04, 0xD2, 0x80]`. -/
theorem header_bytes_zero_to_two (h : DNSHeader) (bs : List Nat) (op : Nat)
    (hid : h.packet_id < 65536)
    (hop : h.opcode.to_bytes = some op)
    (hbs : h.to_bytes = some bs) :
    bs.getD 0 0 = h.packet_id / 256 ∧
    bs.getD 1 0 = h.packet_id % 256 ∧
    (bs.getD 2 0).testBit 7 = h.qr ∧
    bs.getD 2 0 / 8 % 16 = op ∧
    (bs.getD 2 0).testBit 2 = h.aa ∧
    (bs.getD 2 0).testBit 1 = h.tc ∧
    (bs.getD 2 0).testBit 0 = h.rd ∧
    DNSHeader.to_bytes DNSHeader.default
      = some [4, 210, 128, 0, 0, 0, 0, 0, 0, 0, 0, 0] := by
  obtain ⟨b2, b3, hb2, hb3, hbseq⟩ := DNSHeader.to_bytes_eq h bs hbs
  have hb2v := DNSHeader.byte2_eq h op hop
  rw [hb2] at hb2v
  have hb2e : b2 = (if h.qr then 128 else 0) + op * 8 + (if h.aa then 4 else 0)
      + (if h.tc then 2 else 0) + (if h.rd then 1 else 0) :=
    Option.some.inj hb2v
  have hpack := packedByte2_bits op h.qr h.aa h.tc h.rd
    (OpCode.to_bytes_le_six h.opcode op hop)
  subst hbseq
  refine ⟨?_, ?_, ?_, ?_, ?_, ?_, ?_, by decide⟩
  · show h.packet_id / 256 % 256 = h.packet_id / 256
    omega
  · show h.packet_id % 256 = h.packet_id % 256
    rfl
  · show b2.testBit 7 = h.qr
    rw [hb2e]; exact hpack.1
  · show b2 / 8 % 16 = op
    rw [hb2e]; exact hpack.2.1
  · show b2.testBit 2 = h.aa
    rw [hb2e]; exact hpack.2.2.1
  · show b2.testBit 1 = h.tc
    rw [hb2e]; exact hpack.2.2.2.1
  · show b2.testBit 0 = h.rd
    rw [hb2e]; exact hpack.2.2.2.2

/-- Witness for C4 at the default header. -/
theorem header_bytes_zero_to_two_witness :
    ([4, 210, 128, 0, 0, 0, 0, 0, 0, 0, 0, 0] : List Nat).getD 0 0
      = DNSHeader.default.packet_id / 256 ∧
    ([4, 210, 128, 0, 0, 0, 0, 0, 0, 0, 0, 0] : List Nat).getD 1 0
      = DNSHeader.default.packet_id % 256 ∧
    (([4, 210, 128, 0, 0, 0, 0, 0, 0, 0, 0, 0] : List Nat).getD 2 0).testBit 7
      = DNSHeader.default.qr ∧
    ([4, 210, 128, 0, 0, 0, 0, 0, 0, 0, 0, 0] : List Nat).getD 2 0 / 8 % 16 = 0 ∧
    (([4, 210, 128, 0, 0, 0, 0, 0, 0, 0, 0, 0] : List Nat).getD 2 0).testBit 2
      = DNSHeader.default.aa ∧
    (([4, 210, 128, 0, 0, 0, 0, 0, 0, 0, 0, 0] : List Nat).getD 2 0).testBit 1
      = DNSHeader.default.tc ∧
    (([4, 210, 128, 0, 0, 0, 0, 0, 0, 0, 0, 0] : List Nat).getD 2 0).testBit 0
      = DNSHeader.default.rd ∧
    DNSHeader.to_bytes DNSHeader.default
      = some [4, 210, 128, 0, 0, 0, 0, 0, 0, 0, 0, 0] :=
  header_bytes_zero_to_two DNSHeader.default
    [4, 210, 128, 0, 0, 0, 0, 0, 0, 0, 0, 0] 0
    (by decide) (by decide) (by decide)

/-- C5: whenever encoding succeeds the output has exactly 12 bytes, and
bytes 4-5, 6-7, 8-9, 10-11 are the big-endian QDCOUNT, ANCOUNT, NSCOUNT
and ARCOUNT. -/
theorem header_length_and_counts (h : DNSHeader) (bs : List Nat)
    (hq : h.qdcount < 65536) (ha : h.ancount < 65536)
    (hn : h.nscount < 65536) (hr : h.arcount < 65536)
    (hbs : h.to_bytes = some bs) :
    bs.length = 12 ∧
    bs.getD 4 0 = h.qdcount / 256 ∧ bs.getD 5 0 = h.qdcount % 256 ∧
    bs.getD 6 0 = h.ancount / 256 ∧ bs.getD 7 0 = h.ancount % 256 ∧
    bs.getD 8 0 = h.nscount / 256 ∧ bs.getD 9 0 = h.nscount % 256 ∧
    bs.getD 10 0 = h.arcount / 256 ∧ bs.getD 11 0 = h.arcount % 256 := by
  obtain ⟨b2, b3, hb2, hb3, hbseq⟩ := DNSHeader.to_bytes_eq h bs hbs
  subst hbseq
  refine ⟨rfl, ?_, ?_, ?_, ?_, ?_, ?_, ?_, ?_⟩
  · show h.qdcount / 256 % 256 = h.qdcount / 256
    omega
  · show h.qdcount % 256 = h.qdcount % 256
    rfl
  · show h.ancount / 256 % 256 = h.ancount / 256
    omega
  · show h.ancount % 256 = h.ancount % 256
    rfl
  · show h.nscount / 256 % 256 = h.nscount / 256
    omega
  · show h.nscount % 256 = h.nscount % 256
    rfl
  · show h.arcount / 256 % 256 = h.arcount / 256
    omega
  · show h.arcount % 256 = h.arcount % 256
    rfl

/-- Witness for C5 at the default header. -/
theorem header_length_and_counts_witness :
    ([4, 210, 128, 0, 0, 0, 0, 0, 0, 0, 0, 0] : List Nat).length = 12 ∧
    ([4, 210, 128, 0, 0, 0, 0, 0, 0, 0, 0, 0] : List Nat).getD 4 0
      = DNSHeader.default.qdcount / 256 ∧
    ([4, 210, 128, 0, 0, 0, 0, 0, 0, 0, 0, 0] : List Nat).getD 5 0
      = DNSHeader.default.qdcount % 256 ∧
    ([4, 210, 128, 0, 0, 0, 0, 0, 0, 0, 0, 0] : List Nat).getD 6 0
      = DNSHeader.default.ancount / 256 ∧
    ([4, 210, 128, 0, 0, 0, 0, 0, 0, 0, 0, 0] : List Nat).getD 7 0
      = DNSHeader.default.ancount % 256 ∧
    ([4, 210, 128, 0, 0, 0, 0, 0, 0, 0, 0, 0] : List Nat).getD 8 0
      = DNSHeader.default.nscount / 256 ∧
    ([4, 210, 128, 0, 0, 0, 0, 0, 0, 0, 0, 0] : List Nat).getD 9 0
      = DNSHeader.default.nscount % 256 ∧
    ([4, 210, 128, 0, 0, 0, 0, 0, 0, 0, 0, 0] : List Nat).getD 10 0
      = DNSHeader.default.arcount / 256 ∧
    ([4, 210, 128, 0, 0, 0, 0, 0, 0, 0, 0, 0] : List Nat).getD 11 0
      = DNSHeader.default.arcount % 256 :=
  header_length_and_counts DNSHeader.default
    [4, 210, 128, 0, 0, 0, 0, 0, 0, 0, 0, 0]
    (by decide) (by decide) (by decide) (by decide) (by decide)

/-- C6: `Label::from_str` succeeds exactly when the text has no `'.'`
(byte 46) and at most 255 bytes; on success `Label::to_bytes` is the
length byte followed by the raw bytes, `1 + length` bytes in all; on the
complementary inputs parsing fails. -/
theorem parse_label_spec (s : List Nat) :
    ((Label.from_str s).isSome ↔ (46 ∉ s ∧ s.length ≤ 255)) ∧
    (Label.from_str s).map Label.to_bytes
      = (if 46 ∈ s ∨ 255 < s.length then none
         else some (s.length :: s)) ∧
    (Label.from_str s).map (fun l => l.to_bytes.length)
      = (if 46 ∈ s ∨ 255 < s.length then none
         else some (1 + s.length)) := by
  by_cases hc : 46 ∈ s ∨ 255 < s.length
  · simp only [Label.from_str, if_pos hc, Option.isSome_none, Option.map_none]
    refine ⟨by simp; tauto, rfl, rfl⟩
  · push_neg at hc
    obtain ⟨h1, h2⟩ := hc
    have hns : ¬ (46 ∈ s ∨ 255 < s.length) := by
      push_neg
      exact ⟨h1, by omega⟩
    simp only [Label.from_str, if_neg hns, Option.isSome_some, Option.map_some]
    refine ⟨by simp [h1]; omega, ?_, ?_⟩
    · simp [Label.to_bytes, Nat.mod_eq_of_lt (by omega : s.length < 256)]
    · simp [Label.to_bytes, Nat.mod_eq_of_lt (by omega : s.length < 256)]
      omega

/-- C7: `CName::from_str` splits on `'.'` (byte 46), parses every segment
as a label, succeeds exactly when all segments are valid, and on success
the resulting labels carry exactly the segments in order; any failing
segment yields the (single-valued) parse error with no partial result. -/
theorem parse_name_spec (s : List Nat) :
    ((CName.from_str s).isSome
      = (splitOnByte 46 s).all (fun seg => (Label.from_str seg).isSome)) ∧
    ((CName.from_str s).map (fun c => c.labels.map Label.value)
      = if (splitOnByte 46 s).all (fun seg => (Label.from_str seg).isSome)
        then some (splitOnByte 46 s) else none) := by
  constructor
  · rw [CName.from_str, ← collectLabels_isSome]
    cases collectLabels (splitOnByte 46 s) <;> simp
  · rw [CName.from_str, ← collectLabels_values]
    cases collectLabels (splitOnByte 46 s) <;> simp

/-- C8: `CName::to_bytes` concatenates the labels' encodings in order and
appends a single zero terminator; the name parsed from `"abc.com"`
encodes to the 9 bytes `[3, a, b, c, 3, c, o, m, 0]`, and the empty name
with zero labels encodes to `[0]`. -/
theorem encode_name_spec :
    (∀ c : CName, CName.to_bytes c
      = (c.labels.map Label.to_bytes).flatten ++ [0]) ∧
    (CName.from_str abcComBytes).map CName.to_bytes
      = some [3, 97, 98, 99, 3, 99, 111, 109, 0] ∧
    CName.to_bytes { labels := [] } = [0] := by
  refine ⟨fun c => ?_, by decide, by decide⟩
  simp [CName.to_bytes, List.flatMap]

/-- C9: the enumerated-field codecs return the RFC wire values for the
default variants — OpCode Query `0x00`, RCode NoError `0x00`, RRType A
`[0x00, 0x01]`, Class IN `[0x00, 0x01]` — and the default variant of each
enumeration is Query, NoError, A and IN respectively. -/
theorem enum_wire_values_and_defaults :
    OpCode.to_bytes OpCode.Query = some 0 ∧
    RCode.to_bytes RCode.NoError = 0 ∧
    RRType.to_bytes RRType.A = some [0, 1] ∧
    Class.to_bytes Class.IN = [0, 1] ∧
    OpCode.default = OpCode.Query ∧
    RCode.default = RCode.NoError ∧
    RRType.default = RRType.A ∧
    Class.default = Class.IN := by decide

/-- C10: parsing the empty string as a label succeeds with a zero-length
label; parsing it as a name yields one zero-length label, which encodes to
`[0, 0]` — distinct from the single-byte `[0]` encoding of the zero-label
name. -/
theorem empty_string_parses_to_empty_label :
    Label.from_str [] = some { length := 0, value := [] } ∧
    CName.from_str [] = some { labels := [{ length := 0, value := [] }] } ∧
    (CName.from_str []).map CName.to_bytes = some [0, 0] ∧
    CName.to_bytes { labels := [] } = [0] ∧
    ([0, 0] : List Nat) ≠ [0] := by decide

end DNS
